import Mathlib

/-!
Verification of the geometric core of the `glimpse` photogrammetry toolkit:
the distorted pinhole `Camera` model (`src/glimpse/image.py`), the
correspondence sets, the RANSAC robust estimator and the `Cameras`
bundle-adjuster fit protocol (`src/glimpse/optimize.py`).

Conventions of the embedding:
* numpy float arrays of the resize arithmetic are modelled over `ℚ`
  (`np.floor` / `np.round` are exact on the values reached here);
* the projective geometry is modelled over `ℝ` (rotation matrices need
  `Real.cos` / `Real.sin`);
* the in-band NaN marker that `Camera._world2camera` writes for points
  behind the camera is modelled by `Option` (`none` = NaN row);
* Python exceptions are modelled by `Except String`;
* `np.random` streams are modelled as explicit sample streams, and the
  unbounded `while` loop of `ransac` as a fuel-indexed runner whose
  `none` answer means the loop has not finished within the given fuel.
-/

namespace Glimpse

/-! ### Camera.resize (image.py lines 395-422), scalar-size path, over ℚ -/

/-- `np.floor`, as a map `ℚ → ℚ`. -/
def npFloor (x : ℚ) : ℚ := (x.floor : ℤ)

/-- `np.round`, as a map `ℚ → ℚ`.  numpy rounds halves to even; `resize`
only applies it to integer-valued inputs (outputs of `np.floor`), where
every rounding convention is the identity, so half-up is faithful here. -/
def npRound (x : ℚ) : ℚ := ((x + 1/2).floor : ℤ)

/-- The slice of `Camera` state read and written by `Camera.resize`:
`imgsz`, `f`, `c` (current values) and `original_imgsz`
(= `original_vector[6:8]`, frozen at construction). -/
@[ext]
structure CamQ where
  imgsz : ℚ × ℚ
  f : ℚ × ℚ
  c : ℚ × ℚ
  original_imgsz : ℚ × ℚ
deriving DecidableEq

/-- `Camera.resize(size)` for a scalar `size` argument:
`new_size = np.floor(size * original_imgsz + 0.5)`,
`scale2d = new_size / imgsz`, then `imgsz = np.round(new_size)`,
`f *= scale2d`, `c *= scale2d`. -/
def CamQ.resizeScalar (cam : CamQ) (size : ℚ) : CamQ :=
  let new_w := npFloor (size * cam.original_imgsz.1 + 1/2)
  let new_h := npFloor (size * cam.original_imgsz.2 + 1/2)
  let sx := new_w / cam.imgsz.1
  let sy := new_h / cam.imgsz.2
  { cam with
    imgsz := (npRound new_w, npRound new_h)
    f := (cam.f.1 * sx, cam.f.2 * sy)
    c := (cam.c.1 * sx, cam.c.2 * sy) }

/-- The default camera of the spec scenarios:
`imgsz=(100,100)`, `f=(100,100)`, `c=(0,0)`, at its original size. -/
def cam100 : CamQ :=
  { imgsz := (100, 100), f := (100, 100), c := (0, 0),
    original_imgsz := (100, 100) }

theorem ratFloor_eq_intFloor (q : ℚ) : q.floor = ⌊q⌋ := by
  rw [Rat.floor_def', Rat.floor_def]

theorem npFloor_eq_floor (x : ℚ) : npFloor x = (⌊x⌋ : ℚ) := by
  rw [npFloor, ratFloor_eq_intFloor]

theorem npRound_eq_floor (x : ℚ) : npRound x = (⌊x + 1/2⌋ : ℚ) := by
  rw [npRound, ratFloor_eq_intFloor]

theorem npFloor_intCast (n : ℤ) : npFloor (n : ℚ) = n := by
  simp [npFloor_eq_floor]

theorem npRound_intCast (n : ℤ) : npRound (n : ℚ) = n := by
  have h0 : ⌊(1/2 : ℚ)⌋ = 0 := by norm_num
  simp [npRound_eq_floor, Int.floor_int_add, h0]
  norm_num

theorem npRound_npFloor (x : ℚ) : npRound (npFloor x) = npFloor x := by
  simpa using npRound_intCast ⌊x⌋

theorem npFloor_intCast_add_half (n : ℤ) : npFloor ((n : ℚ) + 1/2) = n := by
  have h0 : ⌊(1/2 : ℚ)⌋ = 0 := by norm_num
  simp [npFloor_eq_floor, Int.floor_int_add, h0]
  norm_num

/-- C4 counterexample: on the spec's own scenario camera
(`imgsz=(100,100)`, `f=(100,100)`, at its original size),
`resize(2.0)` followed by `resize(0.5)` yields `imgsz=(50,50)` and
`f=(50,50)` — half the original values, not the original values:
`resize` scales relative to `original_imgsz`, not the current size. -/
theorem resize_double_then_half_not_identity :
    ((cam100.resizeScalar 2).resizeScalar (1/2)).imgsz ≠ cam100.imgsz ∧
    ((cam100.resizeScalar 2).resizeScalar (1/2)).f ≠ cam100.f ∧
    ((cam100.resizeScalar 2).resizeScalar (1/2)).imgsz = (50, 50) := by
  norm_num [cam100, CamQ.resizeScalar, npFloor_eq_floor, npRound_eq_floor,
    Prod.ext_iff]

/-- C4 (amended): because `Camera.resize` scales relative to the
original image size snapshot, the round trip that restores `imgsz`, `f`
and `c` is `resize(2.0)` then `resize(1.0)` (for a camera currently at
its original, integral, positive size); `resize(2.0)` then `resize(0.5)`
instead leaves the camera at half its original size. -/
theorem resize_double_then_unit_restores (cam : CamQ) (a b : ℤ)
    (horig : cam.original_imgsz = ((a : ℚ), (b : ℚ)))
    (himg : cam.imgsz = cam.original_imgsz)
    (ha : 0 < a) (hb : 0 < b) :
    (cam.resizeScalar 2).resizeScalar 1 = cam := by
  obtain ⟨im, f, c, o⟩ := cam
  simp only [CamQ.resizeScalar] at *
  subst horig
  subst himg
  have ha' : ((a : ℚ)) ≠ 0 := Int.cast_ne_zero.mpr (ne_of_gt ha)
  have hb' : ((b : ℚ)) ≠ 0 := Int.cast_ne_zero.mpr (ne_of_gt hb)
  have h2a : npFloor (2 * (a : ℚ) + 1/2) = ((2 * a : ℤ) : ℚ) := by
    rw [show (2 * (a : ℚ)) = ((2 * a : ℤ) : ℚ) by push_cast; ring]
    exact npFloor_intCast_add_half (2 * a)
  have h2b : npFloor (2 * (b : ℚ) + 1/2) = ((2 * b : ℤ) : ℚ) := by
    rw [show (2 * (b : ℚ)) = ((2 * b : ℤ) : ℚ) by push_cast; ring]
    exact npFloor_intCast_add_half (2 * b)
  have h1a : npFloor (1 * (a : ℚ) + 1/2) = ((a : ℤ) : ℚ) := by
    rw [one_mul]; exact npFloor_intCast_add_half a
  have h1b : npFloor (1 * (b : ℚ) + 1/2) = ((b : ℤ) : ℚ) := by
    rw [one_mul]; exact npFloor_intCast_add_half b
  simp only [h2a, h2b, h1a, h1b, npRound_intCast]
  push_cast
  ext <;> dsimp <;> field_simp <;> ring

/-- C10: `Camera.resize` scales relative to the original image size
snapshot, so `resize(s)` is idempotent: a second call with the same
scalar recomputes the same target size and applies a unit scale factor.
(The hypotheses exclude the degenerate case where the target size
`floor(s*original_imgsz + 0.5)` has a zero component, in which the
second call divides zero by zero.) -/
theorem resize_scalar_idempotent (cam : CamQ) (s : ℚ)
    (h1 : 0 < npFloor (s * cam.original_imgsz.1 + 1/2))
    (h2 : 0 < npFloor (s * cam.original_imgsz.2 + 1/2)) :
    (cam.resizeScalar s).resizeScalar s = cam.resizeScalar s := by
  obtain ⟨im, f, c, o⟩ := cam
  simp only [CamQ.resizeScalar] at *
  have hn1 : npFloor (s * o.1 + 1/2) ≠ 0 := ne_of_gt h1
  have hn2 : npFloor (s * o.2 + 1/2) ≠ 0 := ne_of_gt h2
  simp only [npRound_npFloor]
  rw [div_self hn1, div_self hn2]
  ext <;> dsimp <;> ring

/-- Witness for `resize_double_then_unit_restores` at the spec camera. -/
theorem resize_double_then_unit_restores_witness :
    (cam100.resizeScalar 2).resizeScalar 1 = cam100 :=
  resize_double_then_unit_restores cam100 100 100 (by norm_num [cam100])
    (by norm_num [cam100]) (by norm_num) (by norm_num)

/-- Witness for `resize_scalar_idempotent` at the spec camera, `s = 2`. -/
theorem resize_scalar_idempotent_witness :
    (cam100.resizeScalar 2).resizeScalar 2 = cam100.resizeScalar 2 :=
  resize_scalar_idempotent cam100 2 (by norm_num [cam100, npFloor_eq_floor])
    (by norm_num [cam100, npFloor_eq_floor])

/-! ### RANSAC (optimize.py lines 1235-1306), over ℚ -/

/-- The duck-typed model interface consumed by `ransac`:
`data_size()`, `fit(index)` returning parameters or `None`, and a
per-point error; `errors(params, index)` is the pointwise array of
`errorAt params` over `index`. -/
structure RModel where
  data_size : ℕ
  fit : List ℕ → Option (List ℚ)
  errorAt : List ℚ → ℕ → ℚ

/-- `model.errors(params, index)`. -/
def RModel.errors (model : RModel) (params : List ℚ) (index : List ℕ) :
    List ℚ :=
  index.map (model.errorAt params)

/-- `np.mean` of a list. -/
def listMean (xs : List ℚ) : ℚ := xs.sum / xs.length

/-- One output of `ransac_sample`: a `(maybe_idx, test_idx)` draw.
`np.random.shuffle` is modelled by passing an explicit stream of draws. -/
structure RSample where
  maybe_idx : List ℕ
  test_idx : List ℕ

/-- `also_idx = test_idx[test_errs < max_error]` (numpy boolean mask). -/
def alsoIdx (model : RModel) (max_error : ℚ) (params : List ℚ)
    (test_idx : List ℕ) : List ℕ :=
  (test_idx.zip (model.errors params test_idx)).filterMap
    (fun te => if te.2 < max_error then some te.1 else none)

/-- The mutable state of the `ransac` while-loop: the counter `i` and
the best accepted candidate so far as `(params, err, inlier_idx)`;
`none` models the initial `params = None`, `err = np.inf`. -/
structure RState where
  i : ℕ
  best : Option (List ℚ × ℚ × List ℕ)

/-- `i = 0`, `params = None`, `err = np.inf`, `inlier_idx = None`. -/
def RState.init : RState := ⟨0, none⟩

/-- One execution of the `ransac` while-loop body on a drawn sample.
Mirrors the source exactly: a `None` from `model.fit` — for the minimal
sample or for the `better_idx` refit — reaches `continue` WITHOUT
passing the `i += 1` at the bottom of the loop; otherwise `i` is
incremented, and the candidate replaces the best one when it has more
than `min_inliers` inliers beyond the seed sample and a smaller mean
refit error. -/
def ransacStep (model : RModel) (max_error : ℚ) (min_inliers : ℕ)
    (sample : RSample) (s : RState) : RState :=
  match model.fit sample.maybe_idx with
  | none => s
  | some maybe_params =>
    let also_idx := alsoIdx model max_error maybe_params sample.test_idx
    if also_idx.length > min_inliers then
      let better_idx := sample.maybe_idx ++ also_idx
      match model.fit better_idx with
      | none => s
      | some better_params =>
        let this_err := listMean (model.errors better_params better_idx)
        match s.best with
        | none => ⟨s.i + 1, some (better_params, this_err, better_idx)⟩
        | some (bp, be, bidx) =>
          if this_err < be then
            ⟨s.i + 1, some (better_params, this_err, better_idx)⟩
          else ⟨s.i + 1, some (bp, be, bidx)⟩
    else ⟨s.i + 1, s.best⟩

/-- The final inlier pass after the loop:
`inlier_idx = np.where(model.errors(params) <= max_error)[0]`
(note `<=`, over the whole data set). -/
def ransacFinalInliers (model : RModel) (max_error : ℚ) (params : List ℚ) :
    List ℕ :=
  (List.range model.data_size).filter
    (fun j => model.errorAt params j ≤ max_error)

/-- The code after the `ransac` while-loop: raise
`ValueError('Best fit does not meet acceptance criteria')` when no
candidate was ever accepted, else return the best parameters paired
with the recomputed inlier index. -/
def ransacFinish (model : RModel) (max_error : ℚ) (s : RState) :
    Except String (List ℚ × List ℕ) :=
  match s.best with
  | none => Except.error "Best fit does not meet acceptance criteria"
  | some (params, _, _) =>
    Except.ok (params, ransacFinalInliers model max_error params)

/-- Fuel-indexed run of the `while i < iterations` loop from state `s`,
drawing sample `stream t` at the t-th execution of the body.  `none`
means the loop has not finished within `fuel` body executions; `some`
is the value `ransac` returns (or the error it raises). -/
def ransacRun (model : RModel) (max_error : ℚ) (min_inliers iters : ℕ)
    (stream : ℕ → RSample) :
    ℕ → ℕ → RState → Option (Except String (List ℚ × List ℕ))
  | 0, _, _ => none
  | fuel + 1, t, s =>
    if s.i < iters then
      ransacRun model max_error min_inliers iters stream fuel (t + 1)
        (ransacStep model max_error min_inliers (stream t) s)
    else
      some (ransacFinish model max_error s)

/-- `ransac(model, sample_size, max_error, min_inliers, iterations)`
terminates on the given draw stream: some amount of fuel completes the
loop. -/
def RansacTerminates (model : RModel) (max_error : ℚ)
    (min_inliers iters : ℕ) (stream : ℕ → RSample) : Prop :=
  ∃ fuel res,
    ransacRun model max_error min_inliers iters stream fuel 0 RState.init =
      some res

/-- A model whose `fit` always returns `None` (e.g. a degenerate
`Polynomial` model for which `np.polyfit` always fails). -/
def fitNoneModel : RModel :=
  { data_size := 2, fit := fun _ => none, errorAt := fun _ _ => 0 }

/-- The draw `([0], [1])` at every iteration. -/
def constStream01 : ℕ → RSample := fun _ => ⟨[0], [1]⟩

/-- A model whose `fit` always succeeds and whose errors are all `5`
(so no candidate ever collects an inlier below `max_error = 1`). -/
def fitConstModel : RModel :=
  { data_size := 2, fit := fun _ => some [], errorAt := fun _ _ => 5 }

/-- A model whose `fit` always succeeds with zero errors. -/
def zeroErrModel : RModel :=
  { data_size := 2, fit := fun _ => some [], errorAt := fun _ _ => 0 }

theorem ransacStep_i_of_total (model : RModel) (me : ℚ) (mi : ℕ)
    (sample : RSample) (s : RState)
    (htotal : ∀ idx, (model.fit idx).isSome = true) :
    (ransacStep model me mi sample s).i = s.i + 1 := by
  obtain ⟨p, hp⟩ :=
    Option.isSome_iff_exists.mp (htotal sample.maybe_idx)
  obtain ⟨q, hq⟩ := Option.isSome_iff_exists.mp
    (htotal (sample.maybe_idx ++ alsoIdx model me p sample.test_idx))
  simp only [ransacStep, hp, hq]
  split
  · split
    · rfl
    · split
      · rfl
      · rfl
  · rfl

theorem ransacRun_total_terminates (model : RModel) (me : ℚ)
    (mi iters : ℕ) (stream : ℕ → RSample)
    (htotal : ∀ idx, (model.fit idx).isSome = true) :
    ∀ fuel t s, iters ≤ s.i + fuel →
      ∃ res,
        ransacRun model me mi iters stream (fuel + 1) t s = some res := by
  intro fuel
  induction fuel with
  | zero =>
    intro t s hs
    rw [ransacRun, if_neg (by omega)]
    exact ⟨_, rfl⟩
  | succ n ih =>
    intro t s hs
    rw [ransacRun]
    by_cases hlt : s.i < iters
    · rw [if_pos hlt]
      exact ih (t + 1) _
        (by rw [ransacStep_i_of_total model me mi (stream t) s htotal]; omega)
    · rw [if_neg hlt]
      exact ⟨_, rfl⟩

theorem ransacStep_fitNone (me : ℚ) (mi : ℕ) (sample : RSample)
    (s : RState) : ransacStep fitNoneModel me mi sample s = s := rfl

theorem ransacRun_fitNone (me : ℚ) (mi iters : ℕ) (h : 0 < iters)
    (stream : ℕ → RSample) :
    ∀ fuel t,
      ransacRun fitNoneModel me mi iters stream fuel t RState.init =
        none := by
  intro fuel
  induction fuel with
  | zero => intro t; rfl
  | succ n ih =>
    intro t
    rw [ransacRun, ransacStep_fitNone, if_pos (by simpa [RState.init] using h)]
    exact ih (t + 1)

/-- C2 counterexample: on a model whose `fit` always returns `None`,
`ransac` never terminates — the `continue` taken when a fit fails skips
the `i += 1` at the bottom of the loop, so the failed draw does NOT
consume the iteration budget and the loop guard `i < iterations` stays
true forever (no amount of fuel completes the loop, even with the
default budget of 100 iterations). -/
theorem ransac_failed_fit_no_termination :
    ¬ RansacTerminates fitNoneModel 1 0 100 constStream01 := by
  rintro ⟨fuel, res, h⟩
  rw [ransacRun_fitNone 1 0 100 (by norm_num) constStream01 fuel 0] at h
  exact Option.noConfusion h

/-- C2 (amended): `ransac` executes at most `iterations`
budget-consuming loop iterations, and terminates within that budget
whenever `model.fit` returns a result on every index set; a draw on
which `fit` returns `None` is retried WITHOUT consuming the budget, so
for models whose `fit` keeps failing, termination is not guaranteed
(`ransac_failed_fit_no_termination`). -/
theorem ransac_terminates_of_total_fit (model : RModel) (me : ℚ)
    (mi iters : ℕ) (stream : ℕ → RSample)
    (htotal : ∀ idx, (model.fit idx).isSome = true) :
    ∃ res,
      ransacRun model me mi iters stream (iters + 1) 0 RState.init =
        some res :=
  ransacRun_total_terminates model me mi iters stream htotal iters 0
    RState.init (by simp [RState.init])

/-- Witness for `ransac_terminates_of_total_fit`: a model with a total
`fit` completes a 1-iteration run with fuel 2. -/
theorem ransac_terminates_of_total_fit_witness :
    ∃ res,
      ransacRun fitConstModel 1 0 1 constStream01 2 0 RState.init =
        some res :=
  ransac_terminates_of_total_fit fitConstModel 1 0 1 constStream01
    (fun _ => rfl)

theorem ransacStep_best_none (model : RModel) (me : ℚ) (mi : ℕ)
    (sample : RSample) (s : RState)
    (hnone : ∀ p, model.fit sample.maybe_idx = some p →
      (alsoIdx model me p sample.test_idx).length ≤ mi)
    (hbest : s.best = none) :
    (ransacStep model me mi sample s).best = none := by
  cases hfit : model.fit sample.maybe_idx with
  | none => simp only [ransacStep, hfit]; exact hbest
  | some p =>
    simp only [ransacStep, hfit]
    rw [if_neg (Nat.not_lt.mpr (hnone p hfit))]
    exact hbest

theorem ransacRun_best_none (model : RModel) (me : ℚ) (mi iters : ℕ)
    (stream : ℕ → RSample)
    (hnone : ∀ t p, model.fit (stream t).maybe_idx = some p →
      (alsoIdx model me p (stream t).test_idx).length ≤ mi) :
    ∀ fuel t s res, s.best = none →
      ransacRun model me mi iters stream fuel t s = some res →
      res = Except.error "Best fit does not meet acceptance criteria" := by
  intro fuel
  induction fuel with
  | zero => intro t s res _ h; exact Option.noConfusion h
  | succ n ih =>
    intro t s res hbest h
    rw [ransacRun] at h
    by_cases hlt : s.i < iters
    · rw [if_pos hlt] at h
      exact ih (t + 1) _ res
        (ransacStep_best_none model me mi (stream t) s (hnone t) hbest) h
    · rw [if_neg hlt] at h
      obtain rfl := Option.some.inj h
      rw [ransacFinish, hbest]

theorem ransacRun_ok_final_inliers (model : RModel) (me : ℚ)
    (mi iters : ℕ) (stream : ℕ → RSample) :
    ∀ fuel t s p idx,
      ransacRun model me mi iters stream fuel t s =
        some (Except.ok (p, idx)) →
      idx = ransacFinalInliers model me p := by
  intro fuel
  induction fuel with
  | zero => intro t s p idx h; exact Option.noConfusion h
  | succ n ih =>
    intro t s p idx h
    rw [ransacRun] at h
    by_cases hlt : s.i < iters
    · rw [if_pos hlt] at h
      exact ih _ _ p idx h
    · rw [if_neg hlt] at h
      have hfin := Option.some.inj h
      cases hb : s.best with
      | none =>
        rw [ransacFinish, hb] at hfin
        exact Except.noConfusion hfin
      | some b =>
        obtain ⟨q, e, ix⟩ := b
        rw [ransacFinish, hb] at hfin
        obtain ⟨hq, hidx⟩ := Prod.mk.injEq .. ▸ Except.ok.inj hfin
        rw [← hidx, ← hq]

/-- C3: if no candidate drawn by `ransac` ever reaches the acceptance
criteria — here, every successfully fitted minimal sample collects at
most `min_inliers` inliers on its test set — then any terminating run
returns the raised `ValueError` and no partial result; conversely, any
run returning parameters also returns the inlier index recomputed
against those parameters in the final pass
(`np.where(model.errors(params) <= max_error)[0]`). -/
theorem ransac_failure_and_final_pass (model : RModel) (me : ℚ)
    (mi iters : ℕ) (stream : ℕ → RSample) :
    ((∀ t p, model.fit (stream t).maybe_idx = some p →
        (alsoIdx model me p (stream t).test_idx).length ≤ mi) →
      ∀ fuel res,
        ransacRun model me mi iters stream fuel 0 RState.init =
          some res →
        res = Except.error "Best fit does not meet acceptance criteria") ∧
    (∀ fuel t s p idx,
      ransacRun model me mi iters stream fuel t s =
        some (Except.ok (p, idx)) →
      idx = ransacFinalInliers model me p) :=
  ⟨fun hnone fuel res h =>
      ransacRun_best_none model me mi iters stream hnone fuel 0
        RState.init res rfl h,
    ransacRun_ok_final_inliers model me mi iters stream⟩

/-- Witness for `ransac_failure_and_final_pass`: a concrete all-outlier
run ends in the raised error, and a concrete accepted run returns the
recomputed inlier index `[0, 1]`. -/
theorem ransac_failure_and_final_pass_witness :
    ransacRun fitConstModel 1 0 1 constStream01 2 0 RState.init =
      some (Except.error "Best fit does not meet acceptance criteria") ∧
    [0, 1] = ransacFinalInliers zeroErrModel 1 [] := by
  have hnone : ∀ t p,
      fitConstModel.fit (constStream01 t).maybe_idx = some p →
      (alsoIdx fitConstModel 1 p (constStream01 t).test_idx).length ≤ 0 := by
    intro t p hp
    obtain rfl : [] = p := Option.some.inj hp
    norm_num [alsoIdx, RModel.errors, fitConstModel, constStream01]
  have hrunA : ransacRun fitConstModel 1 0 1 constStream01 2 0 RState.init =
      some (Except.error "Best fit does not meet acceptance criteria") := by
    norm_num [ransacRun, ransacStep, ransacFinish, RState.init,
      fitConstModel, constStream01, alsoIdx, RModel.errors]
  have hA := (ransac_failure_and_final_pass fitConstModel 1 0 1
    constStream01).1 hnone 2 _ hrunA
  have hrunB : ransacRun zeroErrModel 1 0 1 constStream01 2 0 RState.init =
      some (Except.ok (([] : List ℚ), [0, 1])) := by
    norm_num [ransacRun, ransacStep, ransacFinish, ransacFinalInliers,
      RState.init, zeroErrModel, constStream01, alsoIdx, RModel.errors,
      listMean, List.filterMap_cons, List.filterMap_nil, List.range_succ,
      List.filter_cons, List.filter_nil, decide_eq_true_eq]
  have hB := (ransac_failure_and_final_pass zeroErrModel 1 0 1
    constStream01).2 2 0 RState.init [] [0, 1] hrunB
  exact ⟨hrunA, hB⟩

/-! ### Cameras.build_sparsity (optimize.py lines 911-938) -/

/-- What `build_sparsity` reads from a control (correspondence) object:
its `size` (each observed point contributes two residual rows) and the
positions in `self.cams` of the cameras it references (the result of
`self.cams.index(cam)` for each referenced camera; a camera that is not
in `self.cams` is modelled by an out-of-range index, matching the
`if cam in self.cams` skip). -/
structure SControl where
  size : ℕ
  camIdx : List ℕ

/-- `ctrl_ends = np.cumsum([0] + m_control)` with
`m_control = [2 * control.size for control in controls]`: the first
residual row of control `i` (and, at `i = controls.length`, the total
row count `m`). -/
def ctrlLo : List SControl → ℕ → ℕ
  | _, 0 => 0
  | [], _ + 1 => 0
  | ctl :: rest, i + 1 => 2 * ctl.size + ctrlLo rest i

/-- `cam_ends = np.cumsum([0] + n_cams) + n_group`: the first parameter
column of camera `j`'s block (and, at `j = n_cams.length`, the total
column count `n`). -/
def camLo (n_group : ℕ) : List ℕ → ℕ → ℕ
  | _, 0 => n_group
  | [], _ + 1 => n_group
  | n :: rest, j + 1 => camLo (n_group + n) rest j

/-- Entry `(r, c)` of the boolean matrix built by `build_sparsity`: the
zero-initialized matrix receives ones over the whole group-parameter
block (`S[:, 0:n_group] = 1`) and, for each control `i` and each camera
index `j` it references that lies in `self.cams`, over the rectangle
`S[ctrl_ends[i]:ctrl_ends[i+1], cam_ends[j]:cam_ends[j+1]] = 1`. -/
def sparsityEntry (n_group : ℕ) (n_cams : List ℕ)
    (controls : List SControl) (r c : ℕ) : Bool :=
  c < n_group ||
    (List.range controls.length).any (fun i =>
      (ctrlLo controls i ≤ r && r < ctrlLo controls (i + 1)) &&
      (controls.getD i ⟨0, []⟩).camIdx.any (fun j =>
        j < n_cams.length && (camLo n_group n_cams j ≤ c &&
          c < camLo n_group n_cams (j + 1))))

theorem ctrlLo_mono (controls : List SControl) :
    ∀ a b, a ≤ b → ctrlLo controls a ≤ ctrlLo controls b := by
  induction controls with
  | nil =>
    intro a b _
    cases a <;> cases b <;> simp [ctrlLo]
  | cons ctl rest ih =>
    intro a b hab
    cases a with
    | zero => cases b <;> simp [ctrlLo]
    | succ a' =>
      cases b with
      | zero => omega
      | succ b' =>
        simp only [ctrlLo]
        have := ih a' b' (by omega)
        omega

/-- A two-control configuration: control 0 has 2 points (rows 0-3) and
references only camera 1; control 1 has 1 point (rows 4-5) and
references only camera 0. -/
def sparsityControls : List SControl := [⟨2, [1]⟩, ⟨1, [0]⟩]

/-- C8: in the sparsity matrix built by `build_sparsity` (with group
parameter count `n_group` and per-camera parameter counts `n_cams`):
(a) the shared (group) parameter columns are nonzero in every residual
row; (b) for a control `i` referencing only camera `j`, a residual row
of control `i` is nonzero only in the group block or in camera `j`'s
column block; (c) within camera `j`'s column block those rows are
marked live. -/
theorem build_sparsity_blocks (n_group : ℕ) (n_cams : List ℕ)
    (controls : List SControl) :
    (∀ r c, c < n_group →
      sparsityEntry n_group n_cams controls r c = true) ∧
    (∀ i j r c, i < controls.length →
      (controls.getD i ⟨0, []⟩).camIdx = [j] →
      ctrlLo controls i ≤ r → r < ctrlLo controls (i + 1) →
      sparsityEntry n_group n_cams controls r c = true →
      c < n_group ∨ (j < n_cams.length ∧ camLo n_group n_cams j ≤ c ∧
        c < camLo n_group n_cams (j + 1))) ∧
    (∀ i j r c, i < controls.length →
      (controls.getD i ⟨0, []⟩).camIdx = [j] →
      ctrlLo controls i ≤ r → r < ctrlLo controls (i + 1) →
      j < n_cams.length → camLo n_group n_cams j ≤ c →
      c < camLo n_group n_cams (j + 1) →
      sparsityEntry n_group n_cams controls r c = true) := by
  refine ⟨?_, ?_, ?_⟩
  · intro r c hc
    simp [sparsityEntry, hc]
  · intro i j r c hi hcam hr1 hr2 hS
    rcases Bool.or_eq_true _ _ |>.mp hS with h | h
    · exact Or.inl (of_decide_eq_true h)
    · right
      obtain ⟨i', hi'mem, hbody⟩ := List.any_eq_true.mp h
      rw [List.mem_range] at hi'mem
      obtain ⟨hrow, hcams⟩ := Bool.and_eq_true _ _ |>.mp hbody
      obtain ⟨hr1', hr2'⟩ := Bool.and_eq_true _ _ |>.mp hrow
      replace hr1' : ctrlLo controls i' ≤ r := of_decide_eq_true hr1'
      replace hr2' : r < ctrlLo controls (i' + 1) := of_decide_eq_true hr2'
      have hii : i' = i := by
        by_contra hne
        rcases Nat.lt_or_ge i' i with hlt | hge
        · have := ctrlLo_mono controls (i' + 1) i hlt
          omega
        · have hlt : i < i' := by omega
          have := ctrlLo_mono controls (i + 1) i' hlt
          omega
      subst hii
      obtain ⟨j', hj'mem, hcol⟩ := List.any_eq_true.mp hcams
      rw [hcam, List.mem_singleton] at hj'mem
      subst hj'mem
      obtain ⟨hjlen, hcol'⟩ := Bool.and_eq_true _ _ |>.mp hcol
      obtain ⟨hc1, hc2⟩ := Bool.and_eq_true _ _ |>.mp hcol'
      exact ⟨of_decide_eq_true hjlen,
        of_decide_eq_true hc1, of_decide_eq_true hc2⟩
  · intro i j r c hi hcam hr1 hr2 hjlen hc1 hc2
    apply Bool.or_eq_true _ _ |>.mpr
    right
    apply List.any_eq_true.mpr
    refine ⟨i, List.mem_range.mpr hi, ?_⟩
    apply Bool.and_eq_true _ _ |>.mpr
    refine ⟨Bool.and_eq_true _ _ |>.mpr
      ⟨decide_eq_true hr1, decide_eq_true hr2⟩, ?_⟩
    apply List.any_eq_true.mpr
    refine ⟨j, by rw [hcam]; exact List.mem_singleton.mpr rfl, ?_⟩
    exact Bool.and_eq_true _ _ |>.mpr ⟨decide_eq_true hjlen,
      Bool.and_eq_true _ _ |>.mpr ⟨decide_eq_true hc1, decide_eq_true hc2⟩⟩

/-- Witness for `build_sparsity_blocks` on `sparsityControls` with one
group parameter and camera blocks of widths 2 and 3 (columns 1-2 and
3-5): the group column is live in row 3; row 3 (control 0, which
references only camera 1) at column 4 lies in camera 1's block; and
that entry is live. -/
theorem build_sparsity_blocks_witness :
    sparsityEntry 1 [2, 3] sparsityControls 3 0 = true ∧
    (4 < 1 ∨ (1 < [2, 3].length ∧ camLo 1 [2, 3] 1 ≤ 4 ∧
      4 < camLo 1 [2, 3] 2)) ∧
    sparsityEntry 1 [2, 3] sparsityControls 3 4 = true := by
  refine ⟨?_, ?_, ?_⟩
  · exact (build_sparsity_blocks 1 [2, 3] sparsityControls).1 3 0
      (by decide)
  · exact (build_sparsity_blocks 1 [2, 3] sparsityControls).2.1 0 1 3 4
      (by decide) rfl (by decide) (by decide) (by decide)
  · exact (build_sparsity_blocks 1 [2, 3] sparsityControls).2.2 0 1 3 4
      (by decide) rfl (by decide) (by decide) (by decide) (by decide)
      (by decide)

/-! ### Cameras.fit rollback protocol (optimize.py lines 817-1087) -/

/-- The outcome record of `lmfit.minimize`: the convergence flag
`success`, the solver `message`, and the fitted parameter values
(`list(result.params.valuesdict().values())`). -/
structure SolverResult where
  success : Bool
  message : String
  values : List ℚ

/-- An abstract run of `lmfit.minimize`: the sequence of trial
parameter vectors at which the solver evaluates the residual callback
(`fcn=self.residuals`), followed by the result it returns. -/
structure SolverRun where
  probes : List (List ℚ)
  result : SolverResult

/-- The camera-vector state owned by a `Cameras` bundle adjuster:
the current `cam.vector` of each optimized camera, and the copies
saved as `self.vectors` at construction for resetting. -/
structure BAState where
  cams : List (List ℚ)
  vectors : List (List ℚ)

/-- `set_cameras(params)`, i.e. `self.apply_params(params)`: the
closure built by `build_lmfit_params` writes the masked parameter
values into the camera vectors; `apply` abstracts that write. -/
def setCameras (apply : List ℚ → List (List ℚ) → List (List ℚ))
    (s : BAState) (params : List ℚ) : BAState :=
  { s with cams := apply params s.cams }

/-- `reset_cameras()` with no arguments: restore every camera vector
from the saved `self.vectors`. -/
def resetCameras (s : BAState) : BAState :=
  { s with cams := s.vectors }

/-- `reset_cameras(vectors)` with `save=False`: restore the camera
vectors from the given list, leaving `self.vectors` untouched. -/
def resetCamerasTo (s : BAState) (vectors : List (List ℚ)) : BAState :=
  { s with cams := vectors }

/-- The state effect of `Cameras.predicted(params=...)` — and hence of
every residual evaluation the solver performs: save the current camera
vectors, `set_cameras(params)`, compute the prediction (pure), then
`reset_cameras(vectors)`. -/
def predictedAt (apply : List ℚ → List (List ℚ) → List (List ℚ))
    (s : BAState) (params : List ℚ) : BAState :=
  resetCamerasTo (setCameras apply s params) s.cams

/-- `lmfit.minimize(params=..., fcn=self.residuals, ...)`: evaluate the
residual callback at each probe (each evaluation saving, setting and
resetting the camera vectors) and return the solver's result. -/
def minimizeRun (apply : List ℚ → List (List ℚ) → List (List ℚ))
    (run : SolverRun) (s : BAState) : SolverResult × BAState :=
  (run.result, run.probes.foldl (predictedAt apply) s)

/-- `Cameras.fit` with no warm-start sequence: run the solver and
return the fitted parameter values on `success`, `None` otherwise
(`fit` falls off the end without a `return`). -/
def fitPlain (apply : List ℚ → List (List ℚ) → List (List ℚ))
    (run : SolverRun) (s : BAState) : Option (List ℚ) × BAState :=
  let r := minimizeRun apply run s
  (if r.1.success then some r.1.values else none, r.2)

/-- One warm-start stage of `Cameras.fit`: build a fresh `Cameras` over
the same camera objects (so the sub-adjuster's saved vectors are the
CURRENT vectors), run its plain fit, and `model.set_cameras(values)` if
the stage succeeded. -/
def warmStage (apply : List ℚ → List (List ℚ) → List (List ℚ))
    (st : BAState) (w : SolverRun) : BAState :=
  let sub : BAState := { cams := st.cams, vectors := st.cams }
  let r := fitPlain apply w sub
  let sub2 := match r.1 with
    | some v => setCameras apply r.2 v
    | none => r.2
  { st with cams := sub2.cams }

/-- `Cameras.fit(index, cam_params, group_params, ...)`: run the
warm-start stages (if any), then the final `lmfit.minimize`; a
warm-started fit then calls `self.reset_cameras()`, restoring the
vectors saved at the adjuster's construction.  The returned value is
`None` unless the final result has `success=True`.  (The failure path
prints `result.message` and raises nothing.) -/
def camerasFit (apply : List ℚ → List (List ℚ) → List (List ℚ))
    (warm : List SolverRun) (final : SolverRun) (s : BAState) :
    Option (List ℚ) × BAState :=
  let s1 := warm.foldl (warmStage apply) s
  let r := minimizeRun apply final s1
  let s3 := if warm.isEmpty then r.2 else resetCameras r.2
  (if r.1.success then some r.1.values else none, s3)

theorem predictedAt_eq (apply : List ℚ → List (List ℚ) → List (List ℚ))
    (s : BAState) (params : List ℚ) : predictedAt apply s params = s := by
  cases s
  rfl

theorem foldl_predictedAt (apply : List ℚ → List (List ℚ) → List (List ℚ)) :
    ∀ (probes : List (List ℚ)) (s : BAState),
      probes.foldl (predictedAt apply) s = s := by
  intro probes
  induction probes with
  | nil => intro s; rfl
  | cons p rest ih => intro s; rw [List.foldl_cons, predictedAt_eq]; exact ih s

theorem warmStage_vectors (apply : List ℚ → List (List ℚ) → List (List ℚ))
    (st : BAState) (w : SolverRun) :
    (warmStage apply st w).vectors = st.vectors := rfl

theorem foldl_warmStage_vectors
    (apply : List ℚ → List (List ℚ) → List (List ℚ)) :
    ∀ (warm : List SolverRun) (st : BAState),
      (warm.foldl (warmStage apply) st).vectors = st.vectors := by
  intro warm
  induction warm with
  | nil => intro st; rfl
  | cons w rest ih =>
    intro st
    rw [List.foldl_cons, ih, warmStage_vectors]

/-- C1: when the solver of the final `lmfit.minimize` reports
`success=False`, `Cameras.fit` returns `None` (a no-result signal
distinguishable from the parameter array returned on success; the
failure path only prints `result.message` and raises no exception) and
every optimized camera's parameter vector is left at its pre-fit value:
each residual evaluation saves, sets and resets the vectors, and a
warm-started fit ends with `reset_cameras()`, restoring its saved
vectors (equal to the pre-fit vectors for an adjuster whose cameras are
unchanged since construction). -/
theorem fit_failure_rolls_back
    (apply : List ℚ → List (List ℚ) → List (List ℚ))
    (warm : List SolverRun) (final : SolverRun) (s : BAState)
    (hfail : final.result.success = false)
    (hsync : s.cams = s.vectors) :
    camerasFit apply warm final s = (none, s) := by
  obtain ⟨cams, vectors⟩ := s
  simp only at hsync
  subst hsync
  cases warm with
  | nil =>
    simp [camerasFit, minimizeRun, foldl_predictedAt, hfail]
  | cons w rest =>
    simp only [camerasFit, minimizeRun, foldl_predictedAt, hfail,
      Bool.false_eq_true, if_false, List.isEmpty_cons]
    have hv := foldl_warmStage_vectors apply (w :: rest) ⟨cams, cams⟩
    rw [Prod.mk.injEq]
    refine ⟨rfl, ?_⟩
    rw [resetCameras, hv]

/-- Witness for `fit_failure_rolls_back`: a concrete two-camera state,
one warm-start stage, and a final solver reporting failure. -/
theorem fit_failure_rolls_back_witness :
    camerasFit (fun p cams => cams.map (fun _ => p))
      [⟨[[5, 5]], ⟨true, "ok", [7, 7]⟩⟩]
      ⟨[[9, 9]], ⟨false, "did not converge", [8, 8]⟩⟩
      ⟨[[1, 2], [3, 4]], [[1, 2], [3, 4]]⟩ =
      (none, ⟨[[1, 2], [3, 4]], [[1, 2], [3, 4]]⟩) :=
  fit_failure_rolls_back (fun p cams => cams.map (fun _ => p))
    [⟨[[5, 5]], ⟨true, "ok", [7, 7]⟩⟩]
    ⟨[[9, 9]], ⟨false, "did not converge", [8, 8]⟩⟩
    ⟨[[1, 2], [3, 4]], [[1, 2], [3, 4]]⟩ rfl rfl

/-! ### Camera geometry (image.py lines 50-1109), over ℝ -/

/-- `np.deg2rad`. -/
noncomputable def deg2rad (d : ℝ) : ℝ := d * (Real.pi / 180)

/-- The core 20-slot `Camera` state, by named field: `xyz` position,
`viewdir` yaw/pitch/roll in degrees, `imgsz` pixel size, `f` focal
length, `c` principal-point offset, radial distortion `k[0..5]` and
tangential distortion `p[0..1]`. -/
structure Camera where
  xyz : ℝ × ℝ × ℝ
  viewdir : ℝ × ℝ × ℝ
  imgsz : ℝ × ℝ
  f : ℝ × ℝ
  c : ℝ × ℝ
  k0 : ℝ
  k1 : ℝ
  k2 : ℝ
  k3 : ℝ
  k4 : ℝ
  k5 : ℝ
  p0 : ℝ
  p1 : ℝ

/-- `np.cos(np.deg2rad(viewdir))`. -/
noncomputable def Camera.C (cam : Camera) : ℝ × ℝ × ℝ :=
  (Real.cos (deg2rad cam.viewdir.1), Real.cos (deg2rad cam.viewdir.2.1),
    Real.cos (deg2rad cam.viewdir.2.2))

/-- `np.sin(np.deg2rad(viewdir))`. -/
noncomputable def Camera.S (cam : Camera) : ℝ × ℝ × ℝ :=
  (Real.sin (deg2rad cam.viewdir.1), Real.sin (deg2rad cam.viewdir.2.1),
    Real.sin (deg2rad cam.viewdir.2.2))

/-- Row 0 of the rotation matrix `Camera.R` (image.py lines 172-176). -/
noncomputable def Camera.R0 (cam : Camera) : ℝ × ℝ × ℝ :=
  (cam.C.1 * cam.C.2.2 + cam.S.1 * cam.S.2.1 * cam.S.2.2,
   cam.C.1 * cam.S.2.1 * cam.S.2.2 - cam.C.2.2 * cam.S.1,
   -cam.C.2.1 * cam.S.2.2)

/-- Row 1 of `Camera.R`. -/
noncomputable def Camera.R1 (cam : Camera) : ℝ × ℝ × ℝ :=
  (cam.C.2.2 * cam.S.1 * cam.S.2.1 - cam.C.1 * cam.S.2.2,
   cam.S.1 * cam.S.2.2 + cam.C.1 * cam.C.2.2 * cam.S.2.1,
   -cam.C.2.1 * cam.C.2.2)

/-- Row 2 (the optical axis) of `Camera.R`. -/
noncomputable def Camera.R2 (cam : Camera) : ℝ × ℝ × ℝ :=
  (cam.C.2.1 * cam.S.1, cam.C.1 * cam.C.2.1, cam.S.2.1)

/-- Euclidean dot product on ℝ³. -/
def dot3 (a b : ℝ × ℝ × ℝ) : ℝ :=
  a.1 * b.1 + a.2.1 * b.2.1 + a.2.2 * b.2.2

/-- `np.dot(dxyz, R.T)` on one row: apply `R` to a vector. -/
noncomputable def Camera.rotate (cam : Camera) (v : ℝ × ℝ × ℝ) :
    ℝ × ℝ × ℝ :=
  (dot3 cam.R0 v, dot3 cam.R1 v, dot3 cam.R2 v)

/-- `np.dot(xy, R[0:2,:]) + R.T[:,2]` on one row: the homogeneous
camera ray `Rᵀ (x, y, 1)`. -/
noncomputable def Camera.rotateT1 (cam : Camera) (xy : ℝ × ℝ) :
    ℝ × ℝ × ℝ :=
  (cam.R0.1 * xy.1 + cam.R1.1 * xy.2 + cam.R2.1,
   cam.R0.2.1 * xy.1 + cam.R1.2.1 * xy.2 + cam.R2.2.1,
   cam.R0.2.2 * xy.1 + cam.R1.2.2 * xy.2 + cam.R2.2.2)

/-- `any(self.k)`. -/
def Camera.anyK (cam : Camera) : Prop :=
  cam.k0 ≠ 0 ∨ cam.k1 ≠ 0 ∨ cam.k2 ≠ 0 ∨ cam.k3 ≠ 0 ∨ cam.k4 ≠ 0 ∨
    cam.k5 ≠ 0

/-- `any(self.k[3:6])`. -/
def Camera.anyK36 (cam : Camera) : Prop :=
  cam.k3 ≠ 0 ∨ cam.k4 ≠ 0 ∨ cam.k5 ≠ 0

/-- `any(self.k[1:])`. -/
def Camera.anyK15 (cam : Camera) : Prop :=
  cam.k1 ≠ 0 ∨ cam.k2 ≠ 0 ∨ cam.k3 ≠ 0 ∨ cam.k4 ≠ 0 ∨ cam.k5 ≠ 0

/-- `any(self.p)`. -/
def Camera.anyP (cam : Camera) : Prop :=
  cam.p0 ≠ 0 ∨ cam.p1 ≠ 0

open Classical in
/-- `_radial_distortion(r2)`.  The source guards each added term with
`if self.k[i]:`; over ℝ a zero coefficient contributes a zero term, so
the unconditional sums are extensionally the source's values, while the
division is guarded exactly as in the source. -/
noncomputable def Camera.radialDistortion (cam : Camera) (r2 : ℝ) : ℝ :=
  let dr := 1 + cam.k0 * r2 + cam.k1 * r2 * r2 + cam.k2 * r2 * r2 * r2
  if cam.anyK36 then
    dr / (1 + cam.k3 * r2 + cam.k4 * r2 * r2 + cam.k5 * r2 * r2 * r2)
  else dr

/-- `_tangential_distortion(xy, r2)`. -/
noncomputable def Camera.tangentialDistortion (cam : Camera) (xy : ℝ × ℝ)
    (r2 : ℝ) : ℝ × ℝ :=
  (2 * (xy.1 * xy.2) * cam.p0 + cam.p1 * (r2 + 2 * xy.1 ^ 2),
   cam.p0 * (r2 + 2 * xy.2 ^ 2) + 2 * (xy.1 * xy.2) * cam.p1)

open Classical in
/-- `_distort(xy)`: identity short-circuit when all `k`, `p` are zero;
otherwise multiply by the radial factor (if `any(k)`) and add the
tangential term evaluated at the undistorted input (if `any(p)`). -/
noncomputable def Camera.distort (cam : Camera) (xy : ℝ × ℝ) : ℝ × ℝ :=
  if ¬cam.anyK ∧ ¬cam.anyP then xy
  else
    let r2 := xy.1 ^ 2 + xy.2 ^ 2
    let dxy := if cam.anyK then
        (xy.1 * cam.radialDistortion r2, xy.2 * cam.radialDistortion r2)
      else xy
    if cam.anyP then
      (dxy.1 + (cam.tangentialDistortion xy r2).1,
       dxy.2 + (cam.tangentialDistortion xy r2).2)
    else dxy

/-- `np.arctan2(y, x)`. -/
noncomputable def atan2 (y x : ℝ) : ℝ := Complex.arg ⟨x, y⟩

open Classical in
/-- `_undistort_k1(xy)`: closed-form cubic solution for pure
first-order radial distortion, by the trigonometric (three real roots)
or Cardano (one real root) case on the discriminant sign. -/
noncomputable def Camera.undistortK1 (cam : Camera) (xy : ℝ × ℝ) :
    ℝ × ℝ :=
  let phi := atan2 xy.2 xy.1
  let q := -1 / (3 * cam.k0)
  let r' := -xy.1 / (2 * cam.k0 * Real.cos phi)
  let r :=
    if r' ^ 2 < q ^ 3 then
      let th := Real.arccos (r' * q ^ (-(3 : ℝ) / 2));
      -2 * Real.sqrt q * Real.cos ((th - 2 * Real.pi) / 3)
    else
      let A := -(Real.sign r') *
        (|r'| + Real.sqrt (r' ^ 2 - q ^ 3)) ^ ((1 : ℝ) / 3)
      A + (if A ≠ 0 then q / A else 0)
  (Real.cos phi * r, Real.sin phi * r)

open Classical in
/-- One pass of the loop body of `_undistort_oulu`.  (The dead second
branch reproduces the source's `any(self.k) and not any(self.k)`
condition literally.) -/
noncomputable def Camera.ouluBody (cam : Camera) (xy uxy : ℝ × ℝ) :
    ℝ × ℝ :=
  let r2 := uxy.1 ^ 2 + uxy.2 ^ 2
  if cam.anyP ∧ ¬cam.anyK then
    (xy.1 - (cam.tangentialDistortion uxy r2).1,
     xy.2 - (cam.tangentialDistortion uxy r2).2)
  else if cam.anyK ∧ ¬cam.anyK then
    (xy.1 * (1 / cam.radialDistortion r2),
     xy.2 * (1 / cam.radialDistortion r2))
  else
    ((xy.1 - (cam.tangentialDistortion uxy r2).1) *
      (1 / cam.radialDistortion r2),
     (xy.2 - (cam.tangentialDistortion uxy r2).2) *
      (1 / cam.radialDistortion r2))

/-- `_undistort_oulu(xy)` after `n` iterations, starting from the
distorted coordinate itself; the default `tolerance=0` disables the
early exit, so the loop always runs all iterations. -/
noncomputable def Camera.ouluIter (cam : Camera) (xy : ℝ × ℝ) :
    ℕ → ℝ × ℝ
  | 0 => xy
  | n + 1 => cam.ouluBody xy (cam.ouluIter xy n)

/-- `_undistort_oulu(xy)` with the default `iterations=20`. -/
noncomputable def Camera.undistortOulu (cam : Camera) (xy : ℝ × ℝ) :
    ℝ × ℝ :=
  cam.ouluIter xy 20

open Classical in
/-- `_undistort(xy)` with the default `method='oulu'`: identity for
zero distortion, the closed cubic for pure first-order radial
distortion, otherwise the Oulu fixed-point iteration.  (The `lookup`
and `regulafalsi` strategies are selectable alternatives that the
default never reaches.) -/
noncomputable def Camera.undistort (cam : Camera) (xy : ℝ × ℝ) : ℝ × ℝ :=
  if ¬cam.anyK ∧ ¬cam.anyP then xy
  else if cam.k0 ≠ 0 ∧ ¬cam.anyK15 ∧ ¬cam.anyP then cam.undistortK1 xy
  else cam.undistortOulu xy

open Classical in
/-- `_world2camera(xyz, directions)` on one point, with the elevation
`correction` disabled (its default): subtract the camera position
unless `xyz` are ray directions, rotate by `R`, divide by the optical
axis component, and mark points with non-positive optical-axis
component invalid (`none` models the NaN row the source writes). -/
noncomputable def Camera.world2camera (cam : Camera) (xyz : ℝ × ℝ × ℝ)
    (directions : Bool) : Option (ℝ × ℝ) :=
  let dxyz := if directions then xyz else
    (xyz.1 - cam.xyz.1, xyz.2.1 - cam.xyz.2.1, xyz.2.2 - cam.xyz.2.2)
  let xyz_c := cam.rotate dxyz
  if xyz_c.2.2 ≤ 0 then none
  else some (xyz_c.1 / xyz_c.2.2, xyz_c.2.1 / xyz_c.2.2)

/-- `_camera2image(xy)`: forward distortion, then scale by the focal
length and recenter by `imgsz / 2 + c`. -/
noncomputable def Camera.camera2image (cam : Camera) (xy : ℝ × ℝ) :
    ℝ × ℝ :=
  let dxy := cam.distort xy
  (dxy.1 * cam.f.1 + (cam.imgsz.1 / 2 + cam.c.1),
   dxy.2 * cam.f.2 + (cam.imgsz.2 / 2 + cam.c.2))

/-- `_image2camera(uv)`: recenter, rescale, then undistort. -/
noncomputable def Camera.image2camera (cam : Camera) (uv : ℝ × ℝ) :
    ℝ × ℝ :=
  cam.undistort
    ((uv.1 - (cam.imgsz.1 * 0.5 + cam.c.1)) * (1 / cam.f.1),
     (uv.2 - (cam.imgsz.2 * 0.5 + cam.c.2)) * (1 / cam.f.2))

open Classical in
/-- `_camera2world(xy, directions, depth)`: the ray `Rᵀ (x, y, 1)`,
scaled by `depth` when `depth != 1`, translated by the camera position
unless returning directions. -/
noncomputable def Camera.camera2world (cam : Camera) (xy : ℝ × ℝ)
    (directions : Bool) (depth : ℝ) : ℝ × ℝ × ℝ :=
  let xyz := cam.rotateT1 xy
  let xyz1 := if depth = 1 then xyz else
    (depth * xyz.1, depth * xyz.2.1, depth * xyz.2.2)
  if directions then xyz1 else
    (xyz1.1 + cam.xyz.1, xyz1.2.1 + cam.xyz.2.1, xyz1.2.2 + cam.xyz.2.2)

/-- `project(xyz, directions)` on one point (`correction` disabled,
`return_depth=False`): `_world2camera` then `_camera2image`; the NaN
marker propagates through the finite image-plane arithmetic. -/
noncomputable def Camera.project (cam : Camera) (xyz : ℝ × ℝ × ℝ)
    (directions : Bool) : Option (ℝ × ℝ) :=
  (cam.world2camera xyz directions).map cam.camera2image

/-- `invproject(uv, directions, depth)` on one point:
`_image2camera` then `_camera2world`. -/
noncomputable def Camera.invproject (cam : Camera) (uv : ℝ × ℝ)
    (directions : Bool) (depth : ℝ) : ℝ × ℝ × ℝ :=
  cam.camera2world (cam.image2camera uv) directions depth

/-- The spec's scenario camera, with every constructor default:
position at the origin, view direction zero (facing north),
`imgsz=(100,100)`, `f=(100,100)`, zero `c`, `k`, `p`. -/
noncomputable def camDefault : Camera :=
  { xyz := (0, 0, 0), viewdir := (0, 0, 0), imgsz := (100, 100),
    f := (100, 100), c := (0, 0), k0 := 0, k1 := 0, k2 := 0, k3 := 0,
    k4 := 0, k5 := 0, p0 := 0, p1 := 0 }

/-- A zero-distortion camera away from the origin (at `(0, 0, 1)`). -/
noncomputable def camOffOrigin : Camera :=
  { camDefault with xyz := (0, 0, 1) }

/-! ### Points correspondences (optimize.py lines 14-78) -/

/-- The state of a `Points` correspondence: observed image coordinates
`uv`, world coordinates or ray directions `xyz`, the `directions` flag,
and the camera position snapshot `cam_xyz = cam.xyz.copy()` taken at
construction.  The referencing camera is passed to each operation (the
source holds it by reference and reads its current state). -/
structure PointsObs where
  uv : List (ℝ × ℝ)
  xyz : List (ℝ × ℝ × ℝ)
  directions : Bool
  cam_xyz : ℝ × ℝ × ℝ

/-- `Points.__init__(cam, uv, xyz, directions)`: raises when `uv` and
`xyz` have different numbers of rows, else snapshots `cam.xyz`. -/
def mkPoints (cam : Camera) (uv : List (ℝ × ℝ)) (xyz : List (ℝ × ℝ × ℝ))
    (directions : Bool) : Except String PointsObs :=
  if uv.length ≠ xyz.length then
    Except.error "`uv` and `xyz` have different number of rows"
  else
    Except.ok ⟨uv, xyz, directions, cam.xyz⟩

/-- `Points.is_static()`: the camera is at its construction position. -/
def PointsObs.is_static (pts : PointsObs) (cam : Camera) : Prop :=
  cam.xyz = pts.cam_xyz

open Classical in
/-- `Points.predicted()` over all points: raises when
`directions=True` and the camera has moved, else projects the world
points or directions through the camera. -/
noncomputable def PointsObs.predicted (pts : PointsObs) (cam : Camera) :
    Except String (List (Option (ℝ × ℝ))) :=
  if pts.directions ∧ ¬pts.is_static cam then
    Except.error "Camera has changed position (xyz) and `directions=True`"
  else
    Except.ok (pts.xyz.map (fun x => cam.project x pts.directions))

/-! ### Rotation-matrix facts and the geometry claims -/

theorem R0_dot_R0 (cam : Camera) : dot3 cam.R0 cam.R0 = 1 := by
  have hu := Real.cos_sq_add_sin_sq (deg2rad cam.viewdir.1)
  have hv := Real.cos_sq_add_sin_sq (deg2rad cam.viewdir.2.1)
  have hw := Real.cos_sq_add_sin_sq (deg2rad cam.viewdir.2.2)
  simp only [dot3, Camera.R0, Camera.C, Camera.S]
  set a := Real.cos (deg2rad cam.viewdir.1)
  set b := Real.sin (deg2rad cam.viewdir.1)
  set c := Real.cos (deg2rad cam.viewdir.2.1)
  set d := Real.sin (deg2rad cam.viewdir.2.1)
  set e := Real.cos (deg2rad cam.viewdir.2.2)
  set g := Real.sin (deg2rad cam.viewdir.2.2)
  linear_combination (e ^ 2 + d ^ 2 * g ^ 2) * hu + g ^ 2 * hv + hw

theorem R1_dot_R1 (cam : Camera) : dot3 cam.R1 cam.R1 = 1 := by
  have hu := Real.cos_sq_add_sin_sq (deg2rad cam.viewdir.1)
  have hv := Real.cos_sq_add_sin_sq (deg2rad cam.viewdir.2.1)
  have hw := Real.cos_sq_add_sin_sq (deg2rad cam.viewdir.2.2)
  simp only [dot3, Camera.R1, Camera.C, Camera.S]
  set a := Real.cos (deg2rad cam.viewdir.1)
  set b := Real.sin (deg2rad cam.viewdir.1)
  set c := Real.cos (deg2rad cam.viewdir.2.1)
  set d := Real.sin (deg2rad cam.viewdir.2.1)
  set e := Real.cos (deg2rad cam.viewdir.2.2)
  set g := Real.sin (deg2rad cam.viewdir.2.2)
  linear_combination (e ^ 2 * d ^ 2 + g ^ 2) * hu + e ^ 2 * hv + hw

theorem R2_dot_R2 (cam : Camera) : dot3 cam.R2 cam.R2 = 1 := by
  have hu := Real.cos_sq_add_sin_sq (deg2rad cam.viewdir.1)
  have hv := Real.cos_sq_add_sin_sq (deg2rad cam.viewdir.2.1)
  simp only [dot3, Camera.R2, Camera.C, Camera.S]
  set a := Real.cos (deg2rad cam.viewdir.1)
  set b := Real.sin (deg2rad cam.viewdir.1)
  set c := Real.cos (deg2rad cam.viewdir.2.1)
  set d := Real.sin (deg2rad cam.viewdir.2.1)
  linear_combination c ^ 2 * hu + hv

theorem R0_dot_R1 (cam : Camera) : dot3 cam.R0 cam.R1 = 0 := by
  have hu := Real.cos_sq_add_sin_sq (deg2rad cam.viewdir.1)
  have hv := Real.cos_sq_add_sin_sq (deg2rad cam.viewdir.2.1)
  simp only [dot3, Camera.R0, Camera.R1, Camera.C, Camera.S]
  set a := Real.cos (deg2rad cam.viewdir.1)
  set b := Real.sin (deg2rad cam.viewdir.1)
  set c := Real.cos (deg2rad cam.viewdir.2.1)
  set d := Real.sin (deg2rad cam.viewdir.2.1)
  set e := Real.cos (deg2rad cam.viewdir.2.2)
  set g := Real.sin (deg2rad cam.viewdir.2.2)
  linear_combination e * g * (d ^ 2 - 1) * hu + e * g * hv

theorem R0_dot_R2 (cam : Camera) : dot3 cam.R0 cam.R2 = 0 := by
  have hu := Real.cos_sq_add_sin_sq (deg2rad cam.viewdir.1)
  simp only [dot3, Camera.R0, Camera.R2, Camera.C, Camera.S]
  set a := Real.cos (deg2rad cam.viewdir.1)
  set b := Real.sin (deg2rad cam.viewdir.1)
  set c := Real.cos (deg2rad cam.viewdir.2.1)
  set d := Real.sin (deg2rad cam.viewdir.2.1)
  set g := Real.sin (deg2rad cam.viewdir.2.2)
  linear_combination c * d * g * hu

theorem R1_dot_R2 (cam : Camera) : dot3 cam.R1 cam.R2 = 0 := by
  have hu := Real.cos_sq_add_sin_sq (deg2rad cam.viewdir.1)
  simp only [dot3, Camera.R1, Camera.R2, Camera.C, Camera.S]
  set a := Real.cos (deg2rad cam.viewdir.1)
  set b := Real.sin (deg2rad cam.viewdir.1)
  set c := Real.cos (deg2rad cam.viewdir.2.1)
  set d := Real.sin (deg2rad cam.viewdir.2.1)
  set e := Real.cos (deg2rad cam.viewdir.2.2)
  linear_combination c * d * e * hu

/-- `R` applied to the homogeneous ray `Rᵀ (x, y, 1)` recovers
`(x, y, 1)`: the rows of `R` are orthonormal. -/
theorem rotate_rotateT1 (cam : Camera) (x y : ℝ) :
    cam.rotate (cam.rotateT1 (x, y)) = (x, y, 1) := by
  have h00 := R0_dot_R0 cam
  have h11 := R1_dot_R1 cam
  have h22 := R2_dot_R2 cam
  have h01 := R0_dot_R1 cam
  have h02 := R0_dot_R2 cam
  have h12 := R1_dot_R2 cam
  simp only [dot3] at h00 h11 h22 h01 h02 h12
  simp only [Camera.rotate, Camera.rotateT1, dot3]
  rw [Prod.mk.injEq, Prod.mk.injEq]
  refine ⟨?_, ?_, ?_⟩
  · linear_combination x * h00 + y * h01 + h02
  · linear_combination x * h01 + y * h11 + h12
  · linear_combination x * h02 + y * h12 + h22

theorem distort_id (cam : Camera) (hnk : ¬cam.anyK) (hnp : ¬cam.anyP)
    (xy : ℝ × ℝ) : cam.distort xy = xy := by
  rw [Camera.distort, if_pos ⟨hnk, hnp⟩]

theorem undistort_id (cam : Camera) (hnk : ¬cam.anyK) (hnp : ¬cam.anyP)
    (xy : ℝ × ℝ) : cam.undistort xy = xy := by
  rw [Camera.undistort, if_pos ⟨hnk, hnp⟩]

/-- C5 counterexample: the literal composition `project(invproject(uv))`
with the source's default arguments (`invproject` returns ray
directions, `project` treats its input as absolute coordinates) is NOT
the identity for a zero-distortion camera away from the origin: on the
camera at `(0, 0, 1)`, `uv = (50, 50)` comes back as `(50, 150)`. -/
theorem project_invproject_default_args_fails :
    camOffOrigin.project (camOffOrigin.invproject (50, 50) true 1) false =
      some (50, 150) ∧
    ((50 : ℝ), (150 : ℝ)) ≠ ((50 : ℝ), (50 : ℝ)) := by
  constructor
  · norm_num [camOffOrigin, camDefault, Camera.project, Camera.invproject,
      Camera.image2camera, Camera.camera2world, Camera.world2camera,
      Camera.camera2image, Camera.undistort, Camera.distort, Camera.anyK,
      Camera.anyP, Camera.anyK15, Camera.rotate, Camera.rotateT1, dot3,
      Camera.R0, Camera.R1, Camera.R2, Camera.C, Camera.S, deg2rad]
  · norm_num [Prod.ext_iff]

/-- C5 (amended): for every zero-distortion camera (where both the
forward distortion and the undistortion are the identity), projecting
the ray returned by `invproject` back with matching ray semantics
(`directions=True`) round-trips every image coordinate strictly inside
the frame; the literal default-argument composition additionally
requires the camera to sit at the origin
(`project_invproject_default_args_fails`). -/
theorem project_invproject_roundtrip (cam : Camera)
    (hk0 : cam.k0 = 0) (hk1 : cam.k1 = 0) (hk2 : cam.k2 = 0)
    (hk3 : cam.k3 = 0) (hk4 : cam.k4 = 0) (hk5 : cam.k5 = 0)
    (hp0 : cam.p0 = 0) (hp1 : cam.p1 = 0)
    (hf1 : 0 < cam.f.1) (hf2 : 0 < cam.f.2)
    (uv : ℝ × ℝ) (hu1 : 0 < uv.1) (hu2 : uv.1 < cam.imgsz.1)
    (hv1 : 0 < uv.2) (hv2 : uv.2 < cam.imgsz.2) :
    cam.project (cam.invproject uv true 1) true = some uv := by
  obtain ⟨u, v⟩ := uv
  have hnk : ¬cam.anyK := by
    simp [Camera.anyK, hk0, hk1, hk2, hk3, hk4, hk5]
  have hnp : ¬cam.anyP := by simp [Camera.anyP, hp0, hp1]
  have hray : cam.image2camera (u, v) =
      ((u - (cam.imgsz.1 * 0.5 + cam.c.1)) * (1 / cam.f.1),
       (v - (cam.imgsz.2 * 0.5 + cam.c.2)) * (1 / cam.f.2)) := by
    rw [Camera.image2camera, undistort_id cam hnk hnp]
  set x := (u - (cam.imgsz.1 * 0.5 + cam.c.1)) * (1 / cam.f.1) with hx
  set y := (v - (cam.imgsz.2 * 0.5 + cam.c.2)) * (1 / cam.f.2) with hy
  have hinv : cam.invproject (u, v) true 1 = cam.rotateT1 (x, y) := by
    rw [Camera.invproject, hray]
    simp [Camera.camera2world]
  have hw2c : cam.world2camera (cam.rotateT1 (x, y)) true = some (x, y) := by
    rw [Camera.world2camera]
    norm_num [rotate_rotateT1]
  rw [Camera.project, hinv, hw2c, Option.map_some', Camera.camera2image,
    distort_id cam hnk hnp]
  have hf1' : cam.f.1 ≠ 0 := ne_of_gt hf1
  have hf2' : cam.f.2 ≠ 0 := ne_of_gt hf2
  rw [Option.some.injEq, Prod.mk.injEq, hx, hy]
  constructor
  · field_simp
    ring
  · field_simp
    ring

/-- Witness for `project_invproject_roundtrip` at the spec's default
camera and the image center. -/
theorem project_invproject_roundtrip_witness :
    camDefault.project (camDefault.invproject (50, 50) true 1) true =
      some (50, 50) :=
  project_invproject_roundtrip camDefault rfl rfl rfl rfl rfl rfl rfl rfl
    (by norm_num [camDefault]) (by norm_num [camDefault]) (50, 50)
    (by norm_num) (by norm_num [camDefault]) (by norm_num)
    (by norm_num [camDefault])

/-- `xyz_c[:, 2]`, the component of `xyz - cam.xyz` along the camera's
optical axis (the third rotated coordinate; the quantity `infront`
tests, image.py lines 472-486). -/
noncomputable def Camera.opticalDepth (cam : Camera) (xyz : ℝ × ℝ × ℝ) :
    ℝ :=
  dot3 cam.R2
    (xyz.1 - cam.xyz.1, xyz.2.1 - cam.xyz.2.1, xyz.2.2 - cam.xyz.2.2)

/-- C6: `project` (on absolute world points) returns the NaN marker
exactly for points whose optical-axis component is non-positive
(behind-camera test `xyz_c[:, 2] <= 0`), and a finite-arithmetic image
coordinate for every point with positive optical-axis component. -/
theorem project_nan_iff_behind (cam : Camera) (xyz : ℝ × ℝ × ℝ) :
    (cam.project xyz false = none ↔ cam.opticalDepth xyz ≤ 0) ∧
    (0 < cam.opticalDepth xyz →
      ∃ uv, cam.project xyz false = some uv) := by
  constructor
  · rw [Camera.project, Camera.world2camera]
    simp only [Camera.rotate, Camera.opticalDepth]
    by_cases h : dot3 cam.R2
        (xyz.1 - cam.xyz.1, xyz.2.1 - cam.xyz.2.1,
          xyz.2.2 - cam.xyz.2.2) ≤ 0
    · simp [h]
    · simp [h]
  · intro h
    rw [Camera.project, Camera.world2camera]
    simp only [Camera.rotate]
    rw [if_neg (by simpa [Camera.opticalDepth] using not_le.mpr h)]
    exact ⟨_, rfl⟩

/-- Witness for `project_nan_iff_behind`: on the default camera (facing
north), the point 10 units south is marked invalid and the point 10
units north projects to a finite coordinate. -/
theorem project_nan_iff_behind_witness :
    camDefault.project (0, -10, 0) false = none ∧
    ∃ uv, camDefault.project (0, 10, 0) false = some uv := by
  constructor
  · exact (project_nan_iff_behind camDefault (0, -10, 0)).1.mpr
      (by norm_num [Camera.opticalDepth, dot3, Camera.R2, Camera.C,
        Camera.S, camDefault, deg2rad])
  · exact (project_nan_iff_behind camDefault (0, 10, 0)).2
      (by norm_num [Camera.opticalDepth, dot3, Camera.R2, Camera.C,
        Camera.S, camDefault, deg2rad])

/-- C9: the default camera (`imgsz=(100,100)`, `f=(100,100)`, position
at the origin, facing north, zero `c`, `k`, `p`) projects the world
point `(0, 10, 0)` — on its optical axis — to the image center
`(50, 50)`. -/
theorem project_center_scenario :
    camDefault.project (0, 10, 0) false = some (50, 50) := by
  norm_num [camDefault, Camera.project, Camera.world2camera,
    Camera.camera2image, Camera.distort, Camera.anyK, Camera.anyP,
    Camera.rotate, dot3, Camera.R0, Camera.R1, Camera.R2, Camera.C,
    Camera.S, deg2rad]

/-- C7: for a `Points` correspondence built with `directions=True`,
`predicted()` raises exactly when the referenced camera's position
differs from the `cam_xyz` snapshot taken at construction, and
projects the stored directions whenever the position is unchanged.
(`Lines.project` guards with the identical `is_static` check.) -/
theorem points_predicted_error_iff_moved (cam : Camera) (pts : PointsObs)
    (hdir : pts.directions = true) :
    (pts.predicted cam =
        Except.error
          "Camera has changed position (xyz) and `directions=True`" ↔
      cam.xyz ≠ pts.cam_xyz) ∧
    (cam.xyz = pts.cam_xyz →
      pts.predicted cam =
        Except.ok (pts.xyz.map (fun x => cam.project x pts.directions))) := by
  unfold PointsObs.predicted PointsObs.is_static
  rw [hdir]
  by_cases hst : cam.xyz = pts.cam_xyz
  · rw [if_neg (by simp [hst])]
    exact ⟨by simp [hst], fun _ => rfl⟩
  · rw [if_pos (by simp [hst])]
    exact ⟨by simp [hst], fun h => absurd h hst⟩

/-- A direction-based `Points` correspondence snapshotted at the
origin camera. -/
noncomputable def ptsW : PointsObs :=
  ⟨[(50, 50)], [(0, 1, 0)], true, (0, 0, 0)⟩

/-- Witness for `points_predicted_error_iff_moved`: the moved camera
(`camOffOrigin`) raises; the unmoved camera (`camDefault`) succeeds. -/
theorem points_predicted_error_iff_moved_witness :
    ptsW.predicted camOffOrigin =
      Except.error
        "Camera has changed position (xyz) and `directions=True`" ∧
    ptsW.predicted camDefault =
      Except.ok
        (ptsW.xyz.map (fun x => camDefault.project x ptsW.directions)) := by
  constructor
  · exact (points_predicted_error_iff_moved camOffOrigin ptsW rfl).1.mpr
      (by norm_num [camOffOrigin, camDefault, ptsW, Prod.ext_iff])
  · exact (points_predicted_error_iff_moved camDefault ptsW rfl).2
      (by norm_num [camDefault, ptsW])

/-! ### Lines correspondences (optimize.py lines 136-245) -/

/-- Modelled from the spec: `helpers.boolean_split(xy, mask,
include='false')` (glimpse/helpers.py, which is not under src/) splits
the rows into maximal contiguous runs and keeps the runs where the mask
is false; `Lines.project` calls it on the NaN mask of the projected
points ("Discard nan values (behind camera)").  Here the NaN rows are
the `none` entries, so the result is the maximal runs of `some` rows. -/
def booleanSplitSome {α : Type} : List (Option α) → List (List α)
  | [] => []
  | none :: rest => booleanSplitSome rest
  | some a :: rest =>
    match booleanSplitSome rest with
    | [] => [[a]]
    | r :: rs =>
      match rest with
      | some _ :: _ => (a :: r) :: rs
      | _ => [a] :: r :: rs

open Classical in
/-- Modelled from the spec: `helpers.clip_polyline_box(line, box)`
(glimpse/helpers.py, not under src/) clips a polyline against an
`(xmin, ymin, xmax, ymax)` box, returning the pieces inside.  Modelled
at vertex level as the maximal runs of in-box vertices; the claims
depend only on its totality, never on the clipped geometry. -/
noncomputable def clipPolylineBox (box : (ℝ × ℝ) × (ℝ × ℝ))
    (line : List (ℝ × ℝ)) : List (List (ℝ × ℝ)) :=
  booleanSplitSome (line.map (fun p =>
    if box.1.1 ≤ p.1 ∧ p.1 ≤ box.2.1 ∧ box.1.2 ≤ p.2 ∧ p.2 ≤ box.2.2
    then some p else none))

/-- Modelled from the spec: `helpers.interpolate_line(vertices, dx)`
(glimpse/helpers.py, not under src/) densifies a polyline to points
spaced about `dx` apart along the line.  Modelled as the vertices
themselves; the claims depend only on its totality, never on the
density of the interpolation. -/
def interpolateLine (_dx : ℝ) (line : List (ℝ × ℝ)) : List (ℝ × ℝ) :=
  line

theorem ite_ok_exists {ε α : Type} {c : Prop} [Decidable c] (a b : α) :
    ∃ res, (if c then Except.ok (ε := ε) a else Except.ok b) =
      Except.ok res := by
  by_cases h : c
  · exact ⟨a, if_pos h⟩
  · exact ⟨b, if_neg h⟩

/-- `boolean_split` keeps no run when every row is masked. -/
theorem booleanSplitSome_all_none {α : Type} :
    ∀ l : List (Option α), (∀ x ∈ l, x = none) → booleanSplitSome l = [] := by
  intro l
  induction l with
  | nil => intro _; rfl
  | cons x rest ih =>
    intro h
    have hx := h x (List.mem_cons_self x rest)
    subst hx
    rw [booleanSplitSome]
    exact ih (fun q hq => h q (List.mem_cons_of_mem _ hq))

/-- `np.min` over a list (total; `Lines.project` only applies it to the
eight image-edge points). -/
noncomputable def minD : List ℝ → ℝ
  | [] => 0
  | x :: xs => xs.foldl min x

/-- `np.max` over a list. -/
noncomputable def maxD : List ℝ → ℝ
  | [] => 0
  | x :: xs => xs.foldl max x

/-- `Camera.edges(step=self.imgsz / 2)` — the only step `Lines.project`
uses: `u = linspace(0, W, 3)`, `v = linspace(0, H, 3)`, so the result
is the eight image-perimeter points, clockwise from the origin. -/
noncomputable def Camera.edgesHalf (cam : Camera) : List (ℝ × ℝ) :=
  [(0, 0), (cam.imgsz.1 / 2, 0), (cam.imgsz.1, 0),
   (cam.imgsz.1, cam.imgsz.2 / 2), (cam.imgsz.1, cam.imgsz.2),
   (cam.imgsz.1 / 2, cam.imgsz.2), (0, cam.imgsz.2),
   (0, cam.imgsz.2 / 2)]

/-- The state of a `Lines` correspondence: image line vertices `uvs`
(with the default `step=None`, the interpolated points `uvi` are their
concatenation `np.vstack(uvs)`), world polylines `xyzs`, the
`directions` flag, and the `cam_xyz` snapshot taken at construction. -/
structure LinesObs where
  uvs : List (List (ℝ × ℝ))
  xyzs : List (List (ℝ × ℝ × ℝ))
  directions : Bool
  cam_xyz : ℝ × ℝ × ℝ

/-- `Lines.uvi` with the default `step=None`: `np.vstack(self.uvs)`. -/
def LinesObs.uvi (lns : LinesObs) : List (ℝ × ℝ) := lns.uvs.flatten

/-- `Lines.is_static()`. -/
def LinesObs.is_static (lns : LinesObs) (cam : Camera) : Prop :=
  cam.xyz = lns.cam_xyz

open Classical in
/-- `Lines.project()`: raises when `directions=True` and the camera
has moved; otherwise projects each world polyline, discards the NaN
(behind-camera) rows into maximal in-front runs, clips each run to the
undistorted field-of-view box and densifies it to ~1-pixel spacing,
returning the clipped pieces — or, when no piece remains in view, the
unclipped in-front runs.  The missing helpers (`clip_polyline_box`,
`interpolate_line`) are passed in as `clip` and `interp`. -/
noncomputable def LinesObs.project
    (clip : (ℝ × ℝ) × (ℝ × ℝ) → List (ℝ × ℝ) → List (List (ℝ × ℝ)))
    (interp : ℝ → List (ℝ × ℝ) → List (ℝ × ℝ))
    (lns : LinesObs) (cam : Camera) :
    Except String (List (List (ℝ × ℝ))) :=
  if lns.directions ∧ ¬lns.is_static cam then
    Except.error "Camera has changed position (xyz) and `directions=True`"
  else
    let xy_step := 1 / ((cam.f.1 + cam.f.2) / 2)
    let xy_edges := cam.edgesHalf.map cam.image2camera
    let xy_box := ((minD (xy_edges.map Prod.fst),
                    minD (xy_edges.map Prod.snd)),
                   (maxD (xy_edges.map Prod.fst),
                    maxD (xy_edges.map Prod.snd)))
    let inlines := (lns.xyzs.map (fun xyz =>
      booleanSplitSome
        (xyz.map (fun p => cam.world2camera p lns.directions)))).flatten
    let puvs := (inlines.map (fun line =>
      (clip xy_box line).map (fun cline =>
        (interp xy_step cline).map cam.camera2image))).flatten
    if puvs ≠ [] then Except.ok puvs
    else Except.ok (inlines.map (fun line => line.map cam.camera2image))

/-- Squared Euclidean distance in image space. -/
def dist2 (a b : ℝ × ℝ) : ℝ := (a.1 - b.1) ^ 2 + (a.2 - b.2) ^ 2

open Classical in
/-- Modelled from the spec: the nearest match by Euclidean distance in
image space, ties broken by first occurrence
(`helpers.pairwise_distance`, not under src/, followed by `np.argmin`
over each observed point's row). -/
noncomputable def nearestPoint (uv : ℝ × ℝ) (pts : List (ℝ × ℝ)) :
    ℝ × ℝ :=
  pts.foldl (fun best p => if dist2 p uv < dist2 best uv then p else best)
    (pts.headD (0, 0))

open Classical in
/-- `Lines.predicted()`: `puv = np.row_stack(self.project())` — which
raises when `project()` returns an empty list — then the nearest
projected point for each observed point (`np.argmin` raises when `puv`
has no rows). -/
noncomputable def LinesObs.predicted
    (clip : (ℝ × ℝ) × (ℝ × ℝ) → List (ℝ × ℝ) → List (List (ℝ × ℝ)))
    (interp : ℝ → List (ℝ × ℝ) → List (ℝ × ℝ))
    (lns : LinesObs) (cam : Camera) :
    Except String (List (ℝ × ℝ)) :=
  match lns.project clip interp cam with
  | Except.error e => Except.error e
  | Except.ok puvs =>
    if puvs = [] then
      Except.error "need at least one array to concatenate"
    else
      let puv := puvs.flatten
      if puv = [] then
        Except.error "attempt to get argmin of an empty sequence"
      else
        Except.ok (lns.uvi.map (fun uv => nearestPoint uv puv))

/-- On the input all of whose world points are behind the camera, the
in-front runs are empty, so `Lines.project` returns the empty list and
`Lines.predicted` raises at `np.row_stack` — for every model of the
missing clip/interpolation helpers, since none is ever reached. -/
theorem lines_predicted_empty_of_all_behind
    (clip : (ℝ × ℝ) × (ℝ × ℝ) → List (ℝ × ℝ) → List (List (ℝ × ℝ)))
    (interp : ℝ → List (ℝ × ℝ) → List (ℝ × ℝ))
    (lns : LinesObs) (cam : Camera) (hst : lns.is_static cam)
    (hbehind : ∀ xyz ∈ lns.xyzs, ∀ p ∈ xyz,
      cam.world2camera p lns.directions = none) :
    lns.project clip interp cam = Except.ok [] ∧
    lns.predicted clip interp cam =
      Except.error "need at least one array to concatenate" := by
  have hruns : ∀ xyz ∈ lns.xyzs,
      booleanSplitSome
        (xyz.map (fun p => cam.world2camera p lns.directions)) = [] := by
    intro xyz hxyz
    apply booleanSplitSome_all_none
    intro o ho
    obtain ⟨p, hp, rfl⟩ := List.mem_map.mp ho
    exact hbehind xyz hxyz p hp
  have hinlines : (lns.xyzs.map (fun xyz =>
      booleanSplitSome
        (xyz.map (fun p => cam.world2camera p lns.directions)))).flatten =
      ([] : List (List (ℝ × ℝ))) := by
    rw [List.flatten_eq_nil_iff]
    intro l hl
    obtain ⟨xyz, hxyz, rfl⟩ := List.mem_map.mp hl
    exact hruns xyz hxyz
  have hproj : lns.project clip interp cam = Except.ok [] := by
    rw [LinesObs.project, if_neg (fun h => h.2 hst)]
    simp [hinlines]
  refine ⟨hproj, ?_⟩
  simp only [LinesObs.predicted]
  rw [hproj]
  simp

/-- C7 counterexample: a `Lines` correspondence built with
`directions=True` over an UNMOVED camera, whose single world direction
points behind the camera: `lnsBehind.predicted` raises (at
`np.row_stack` on the empty projection) although `cam.xyz` equals the
`cam_xyz` snapshot — refuting "predicted() raises if and only if the
camera's xyz differs from cam_xyz" for `Lines`. -/
noncomputable def lnsBehind : LinesObs :=
  ⟨[[(50, 50)]], [[(0, -10, 0)]], true, (0, 0, 0)⟩

theorem lines_predicted_fails_while_static :
    camDefault.xyz = lnsBehind.cam_xyz ∧
    lnsBehind.predicted clipPolylineBox interpolateLine camDefault =
      Except.error "need at least one array to concatenate" := by
  have hst : lnsBehind.is_static camDefault := by
    norm_num [LinesObs.is_static, camDefault, lnsBehind]
  have hbehind : ∀ xyz ∈ lnsBehind.xyzs, ∀ p ∈ xyz,
      camDefault.world2camera p lnsBehind.directions = none := by
    intro xyz hxyz p hp
    simp only [lnsBehind, List.mem_singleton] at hxyz hp
    subst hxyz
    simp only [List.mem_singleton] at hp
    subst hp
    norm_num [Camera.world2camera, Camera.rotate, dot3, Camera.R0,
      Camera.R1, Camera.R2, Camera.C, Camera.S, camDefault, deg2rad,
      lnsBehind]
  exact ⟨hst, (lines_predicted_empty_of_all_behind clipPolylineBox
    interpolateLine lnsBehind camDefault hst hbehind).2⟩

/-- C7 (amended): for a `Points` correspondence with `directions=True`,
`predicted()` raises exactly when the camera's position differs from
the `cam_xyz` snapshot and succeeds while it is unchanged; for a
`Lines` correspondence with `directions=True` (and any model of the
missing clip/interpolation helpers), `project()` raises the
`is_static` error exactly when the position differs, and `predicted()`
raises it whenever the position differs — but while the position is
unchanged, `Lines.project` merely returns without raising, and
`Lines.predicted` can still fail on an empty projection
(`lines_predicted_fails_while_static`). -/
theorem points_lines_static_guard (cam : Camera) (pts : PointsObs)
    (lns : LinesObs)
    (clip : (ℝ × ℝ) × (ℝ × ℝ) → List (ℝ × ℝ) → List (List (ℝ × ℝ)))
    (interp : ℝ → List (ℝ × ℝ) → List (ℝ × ℝ))
    (hpdir : pts.directions = true) (hldir : lns.directions = true) :
    (pts.predicted cam =
        Except.error
          "Camera has changed position (xyz) and `directions=True`" ↔
      cam.xyz ≠ pts.cam_xyz) ∧
    (cam.xyz = pts.cam_xyz →
      pts.predicted cam =
        Except.ok (pts.xyz.map (fun x => cam.project x pts.directions))) ∧
    (lns.project clip interp cam =
        Except.error
          "Camera has changed position (xyz) and `directions=True`" ↔
      cam.xyz ≠ lns.cam_xyz) ∧
    (cam.xyz ≠ lns.cam_xyz →
      lns.predicted clip interp cam =
        Except.error
          "Camera has changed position (xyz) and `directions=True`") ∧
    (cam.xyz = lns.cam_xyz →
      ∃ res, lns.project clip interp cam = Except.ok res) := by
  obtain ⟨hpts1, hpts2⟩ := points_predicted_error_iff_moved cam pts hpdir
  have hproj_moved : cam.xyz ≠ lns.cam_xyz →
      lns.project clip interp cam =
        Except.error
          "Camera has changed position (xyz) and `directions=True`" := by
    intro hmv
    rw [LinesObs.project, if_pos ⟨by rw [hldir], fun h => hmv h⟩]
  have hproj_static : cam.xyz = lns.cam_xyz →
      ∃ res, lns.project clip interp cam = Except.ok res := by
    intro hst
    rw [LinesObs.project, if_neg (fun h => h.2 hst)]
    exact ite_ok_exists _ _
  refine ⟨hpts1, hpts2, ?_, ?_, hproj_static⟩
  · constructor
    · intro herr
      by_contra hst
      obtain ⟨res, hres⟩ := hproj_static hst
      rw [hres] at herr
      exact Except.noConfusion herr
    · exact hproj_moved
  · intro hmv
    simp only [LinesObs.predicted]
    rw [hproj_moved hmv]

/-- Witness for `points_lines_static_guard`: the moved camera
(`camOffOrigin`) makes both `Points.predicted` and `Lines.project`
raise the `is_static` error, while the unmoved camera (`camDefault`)
lets `Lines.project` return a value. -/
theorem points_lines_static_guard_witness :
    ptsW.predicted camOffOrigin =
      Except.error
        "Camera has changed position (xyz) and `directions=True`" ∧
    lnsBehind.project clipPolylineBox interpolateLine camOffOrigin =
      Except.error
        "Camera has changed position (xyz) and `directions=True`" ∧
    ∃ res, lnsBehind.project clipPolylineBox interpolateLine camDefault =
      Except.ok res := by
  have hmoved : camOffOrigin.xyz ≠ ((0 : ℝ), (0 : ℝ), (0 : ℝ)) := by
    norm_num [camOffOrigin, camDefault, Prod.ext_iff]
  refine ⟨?_, ?_, ?_⟩
  · exact (points_lines_static_guard camOffOrigin ptsW lnsBehind
      clipPolylineBox interpolateLine rfl rfl).1.mpr hmoved
  · exact (points_lines_static_guard camOffOrigin ptsW lnsBehind
      clipPolylineBox interpolateLine rfl rfl).2.2.1.mpr hmoved
  · exact (points_lines_static_guard camDefault ptsW lnsBehind
      clipPolylineBox interpolateLine rfl rfl).2.2.2.2
      (by norm_num [camDefault, lnsBehind])

end Glimpse
